import Mathlib

/-!
# Voting dapp: a shallow embedding of the on-chain program and its client helpers

This file embeds the account model and the three instruction handlers of the
voting program (`programs/voting-dapp/src/lib.rs`) together with the client-side
address-derivation helpers (`cli/src/utils.rs`) and the read-only query
`has_voted` (`cli/src/client.rs`), and proves the specified properties.

Modelling conventions:
* Machine integers `u64` become `Nat` with explicit bounds against
  `U64_MAX = 2 ^ 64 - 1`; `i64` timestamps become `Int` (none of the verified
  properties depend on `i64` wraparound, and the program performs no arithmetic
  on timestamps, only comparisons).
* Program-derived addresses (PDAs): per the derivation contract, identical seed
  tuples always yield identical addresses and distinct seed tuples yield
  distinct addresses, so an `Address` is modelled as the pair of the program id
  and the seed tuple itself, which realises exactly that contract.  A pubkey is
  a byte list.  `Address.asBytes` plays the role of `Pubkey::as_ref()` (the
  byte form of an address used as a further seed component); any injective
  encoding works, and a length-prefixed flattening is used.
* The global account store becomes an association list `Ledger` from addresses
  to typed records; `init` account creation is "fails if the address is
  occupied, otherwise inserts".
* Each instruction is a pure function `Ledger → Except VError Ledger`: the
  host ledger commits a transaction atomically, so an error result leaves the
  pre-state untouched by construction.  Checks are performed in the order the
  handler body states them (`require!` guards first, account creation at the
  point the created account's data is populated), matching the precondition
  order of the design document.
* `Clock::get()?.unix_timestamp` becomes an explicit `now : Int` argument
  (a trusted value supplied by the runtime, not by the caller).
* The `checked_add(1).unwrap()` calls become `checkedAdd1 : Nat → Option Nat`;
  a `none` aborts the instruction with `ArithmeticOverflow` and no state
  change, which is the observable behaviour of the panicking `unwrap` inside
  an atomic transaction.
-/

namespace VotingDapp

/-- Byte strings are lists of byte values. -/
abbrev Bytes := List Nat

/-- Little-endian 8-byte encoding of a `u64`, as in `poll_id.to_le_bytes()`. -/
def u64LeBytes (n : Nat) : Bytes :=
  (List.range 8).map (fun i => n / 256 ^ i % 256)

/-- UTF code points of a string: the model of `s.as_bytes()`.  Any injective
byte encoding of strings is faithful for the properties proved here, since the
program only ever uses name bytes as seed components. -/
def strBytes (s : String) : Bytes := s.toList.map Char.toNat

/-- A program-derived address.  The derivation contract guarantees that the
map from (program id, seed tuple) to addresses is deterministic and
collision-free, so the address is modelled as that pair itself. -/
structure Address where
  programId : Bytes
  seeds : List Bytes
deriving DecidableEq, Repr

/-- `Pubkey::find_program_address(seeds, program_id)` (bump omitted: the model
keys accounts by the derived address alone). -/
def find_program_address (seeds : List Bytes) (programId : Bytes) : Address :=
  ⟨programId, seeds⟩

/-- The byte form of an address when it is itself used as a seed component
(`poll.key().as_ref()`): an injective length-prefixed flattening. -/
def Address.asBytes (a : Address) : Bytes :=
  a.programId.length :: (a.programId ++ a.seeds.foldr (fun s acc => s.length :: (s ++ acc)) [])

/-- `POLL_SEED = b"poll"`. -/
def POLL_SEED : Bytes := strBytes "poll"

/-- `CANDIDATE_SEED = b"candidate"`. -/
def CANDIDATE_SEED : Bytes := strBytes "candidate"

/-- `RECEIPT_SEED = b"receipt"`. -/
def RECEIPT_SEED : Bytes := strBytes "receipt"

/-- The `Poll` account data. -/
structure Poll where
  poll_id : Nat
  creator : Bytes
  question : String
  description : String
  start_time : Int
  end_time : Int
  candidate_count : Nat
deriving DecidableEq, Repr

/-- The `Candidate` account data. -/
structure Candidate where
  poll : Address
  name : String
  party : String
  votes : Nat
deriving DecidableEq, Repr

/-- The `VoterReceipt` account data. -/
structure VoterReceipt where
  poll : Address
  voter : Bytes
  has_voted : Bool
deriving DecidableEq, Repr

/-- A typed account record (the 8-byte discriminator tag of the real layout
becomes the constructor tag). -/
inductive Record where
  | pollRec (p : Poll)
  | candidateRec (c : Candidate)
  | receiptRec (r : VoterReceipt)
deriving DecidableEq, Repr

/-- Instruction failure codes: the program's own `ErrorCode` variants plus the
runtime-level failures (occupied address on `init`, missing account,
panicking overflow). -/
inductive VError where
  | InvalidTimeRange
  | Unauthorized
  | PollNotActive
  | AlreadyExists
  | NotFound
  | ArithmeticOverflow
deriving DecidableEq, Repr

/-- The global account store: an association list from derived addresses to
records; the first binding for an address is its current content. -/
abbrev Ledger := List (Address × Record)

/-- Look up the record stored at an address. -/
def lookupA : Ledger → Address → Option Record
  | [], _ => none
  | (a, r) :: rest, b => if a = b then some r else lookupA rest b

/-- Create an account: bind a record at a (previously unoccupied) address. -/
def insertA (st : Ledger) (a : Address) (r : Record) : Ledger := (a, r) :: st

/-- Overwrite the record at an existing address (a `mut` account write). -/
def updateA : Ledger → Address → Record → Ledger
  | [], _, _ => []
  | (a0, r0) :: rest, a, r =>
      if a0 = a then (a0, r) :: rest else (a0, r0) :: updateA rest a r

/-- Largest value of a `u64`. -/
def U64_MAX : Nat := 2 ^ 64 - 1

/-- `x.checked_add(1)` on a `u64`. -/
def checkedAdd1 (n : Nat) : Option Nat :=
  if n + 1 ≤ U64_MAX then some (n + 1) else none

/-- Poll PDA: seeds `[POLL_SEED, poll_id.to_le_bytes()]` — identical in the
program's `InitializePoll` accounts struct and the client's
`get_poll_address`. -/
def get_poll_address (programId : Bytes) (poll_id : Nat) : Address :=
  find_program_address [POLL_SEED, u64LeBytes poll_id] programId

/-- Candidate PDA as the PROGRAM derives it (`InitializeCandidate` accounts
struct): seeds `[CANDIDATE_SEED, poll.key().as_ref(), candidate_name.as_bytes()]`
— the second seed is the poll account's address. -/
def prog_candidate_address (programId : Bytes) (pollKey : Address) (candidate_name : String) : Address :=
  find_program_address [CANDIDATE_SEED, pollKey.asBytes, strBytes candidate_name] programId

/-- Receipt PDA as the PROGRAM derives it (`Vote` accounts struct): seeds
`[RECEIPT_SEED, poll.key().as_ref(), voter.key().as_ref()]`. -/
def prog_receipt_address (programId : Bytes) (pollKey : Address) (voter : Bytes) : Address :=
  find_program_address [RECEIPT_SEED, pollKey.asBytes, voter] programId

/-- Candidate PDA as the CLIENT derives it (`utils.rs::get_candidate_address`):
seeds `[CANDIDATE_SEED, poll_id.to_le_bytes(), candidate_name.as_bytes()]` —
the second seed is the 8-byte little-endian poll id, not the poll address. -/
def get_candidate_address (programId : Bytes) (poll_id : Nat) (candidate_name : String) : Address :=
  find_program_address [CANDIDATE_SEED, u64LeBytes poll_id, strBytes candidate_name] programId

/-- Receipt PDA as the CLIENT derives it (`utils.rs::get_receipt_address`):
seeds `[RECEIPT_SEED, poll_id.to_le_bytes(), voter.as_ref()]`. -/
def get_receipt_address (programId : Bytes) (poll_id : Nat) (voter : Bytes) : Address :=
  find_program_address [RECEIPT_SEED, u64LeBytes poll_id, voter] programId

/-- `initialize_poll`: requires `start_time < end_time` (`InvalidTimeRange`
otherwise), creates the poll account at its PDA (`AlreadyExists` if occupied)
and populates it with `candidate_count = 0` and `creator` fixed to the
caller. -/
def initialize_poll (programId : Bytes) (st : Ledger) (creator : Bytes)
    (poll_id : Nat) (question description : String) (start_time end_time : Int) :
    Except VError Ledger :=
  if start_time < end_time then
    let addr := get_poll_address programId poll_id
    if (lookupA st addr).isSome then .error .AlreadyExists
    else .ok (insertA st addr
      (.pollRec ⟨poll_id, creator, question, description, start_time, end_time, 0⟩))
  else .error .InvalidTimeRange

/-- `initialize_candidate`: the poll account (caller-chosen address, typed
`Poll`) must exist; `require_keys_eq!(poll.creator, creator)` guards with
`Unauthorized`; the candidate account is created at the program-derived PDA
(`AlreadyExists` if occupied) with `votes = 0` and the poll back-reference;
`candidate_count` is bumped with `checked_add`. -/
def initialize_candidate (programId : Bytes) (st : Ledger) (creator : Bytes)
    (pollAddr : Address) (candidate_name candidate_party : String) :
    Except VError Ledger :=
  match lookupA st pollAddr with
  | some (.pollRec poll) =>
      if poll.creator = creator then
        let candAddr := prog_candidate_address programId pollAddr candidate_name
        if (lookupA st candAddr).isSome then .error .AlreadyExists
        else
          match checkedAdd1 poll.candidate_count with
          | some newCount =>
              let st1 := updateA st pollAddr
                (.pollRec { poll with candidate_count := newCount })
              .ok (insertA st1 candAddr
                (.candidateRec ⟨pollAddr, candidate_name, candidate_party, 0⟩))
          | none => .error .ArithmeticOverflow
      else .error .Unauthorized
  | _ => .error .NotFound

/-- `vote`: the poll and candidate accounts (caller-chosen addresses, typed)
must exist — note the accounts struct places NO constraint tying
`candidate.poll` to the passed poll; `require!` guards the window
`start_time ≤ now ≤ end_time` with `PollNotActive`; `votes` is bumped with
`checked_add`; the receipt is created at the program-derived PDA
(`AlreadyExists` if occupied) with `has_voted = true`. -/
def vote (programId : Bytes) (st : Ledger) (now : Int)
    (pollAddr candAddr : Address) (voter : Bytes) :
    Except VError Ledger :=
  match lookupA st pollAddr with
  | some (.pollRec poll) =>
      match lookupA st candAddr with
      | some (.candidateRec cand) =>
          if poll.start_time ≤ now ∧ now ≤ poll.end_time then
            let receiptAddr := prog_receipt_address programId pollAddr voter
            if (lookupA st receiptAddr).isSome then .error .AlreadyExists
            else
              match checkedAdd1 cand.votes with
              | some newVotes =>
                  let st1 := updateA st candAddr
                    (.candidateRec { cand with votes := newVotes })
                  .ok (insertA st1 receiptAddr (.receiptRec ⟨pollAddr, voter, true⟩))
              | none => .error .ArithmeticOverflow
          else .error .PollNotActive
      | _ => .error .NotFound
  | _ => .error .NotFound

/-- `client.rs::has_voted`: fetch the account at the client-derived receipt
address; return its `has_voted` field if it decodes as a `VoterReceipt`, and
`false` on any failure (absent account, wrong type). -/
def has_voted (programId : Bytes) (st : Ledger) (poll_id : Nat) (voter : Bytes) : Bool :=
  match lookupA st (get_receipt_address programId poll_id voter) with
  | some (.receiptRec r) => r.has_voted
  | _ => false

/-- Iterated `initialize_candidate` over a list of candidate names (each with
the same party string; the party takes no part in any check). -/
def registerAll (programId : Bytes) (pollAddr : Address) (creator : Bytes) (party : String) :
    Ledger → List String → Except VError Ledger
  | st, [] => .ok st
  | st, n :: rest =>
      match initialize_candidate programId st creator pollAddr n party with
      | .ok st1 => registerAll programId pollAddr creator party st1 rest
      | .error e => .error e

/-- Extract the ledger from a successful instruction (empty ledger on error);
used only to build concrete witness states. -/
def okOr (e : Except VError Ledger) : Ledger :=
  match e with
  | .ok st => st
  | .error _ => []

/-! ## A concrete sample world, used by the witness theorems -/

/-- A concrete program identity. -/
def sampleProgram : Bytes := [42]

/-- A concrete poll-creator identity. -/
def sampleCreator : Bytes := [1, 2]

/-- A concrete voter identity. -/
def sampleVoter : Bytes := [3, 4]

/-- The PDA of the sample poll with id 1. -/
def samplePollAddr : Address := get_poll_address sampleProgram 1

/-- The PDA of a second sample poll with id 2. -/
def samplePoll2Addr : Address := get_poll_address sampleProgram 2

/-- Ledger after creating poll 1 with window [1000, 2000]. -/
def sampleSt0 : Ledger :=
  okOr (initialize_poll sampleProgram [] sampleCreator 1 "Q" "D" 1000 2000)

/-- Ledger after additionally registering candidate "Alice" under poll 1. -/
def sampleSt1 : Ledger :=
  okOr (initialize_candidate sampleProgram sampleSt0 sampleCreator samplePollAddr "Alice" "PartyA")

/-- Ledger after additionally registering candidate "Bob" under poll 1. -/
def sampleSt2 : Ledger :=
  okOr (initialize_candidate sampleProgram sampleSt1 sampleCreator samplePollAddr "Bob" "PartyB")

/-- Program-side PDA of candidate "Alice" under poll 1. -/
def sampleCandAlice : Address := prog_candidate_address sampleProgram samplePollAddr "Alice"

/-- Program-side PDA of candidate "Bob" under poll 1. -/
def sampleCandBob : Address := prog_candidate_address sampleProgram samplePollAddr "Bob"

/-- Ledger with two polls (ids 1 and 2, both with window [1000, 2000]) and a
candidate "Bob" registered under poll 2 only. -/
def crossSt : Ledger :=
  okOr (initialize_candidate sampleProgram
    (okOr (initialize_poll sampleProgram
      (okOr (initialize_poll sampleProgram [] sampleCreator 1 "Q1" "D1" 1000 2000))
      sampleCreator 2 "Q2" "D2" 1000 2000))
    sampleCreator samplePoll2Addr "Bob" "PartyB")

/-- Program-side PDA of candidate "Bob" under poll 2. -/
def sampleCandBob2 : Address := prog_candidate_address sampleProgram samplePoll2Addr "Bob"

/-- A poll whose `candidate_count` sits at the `u64` maximum. -/
def ovfPoll : Poll := ⟨1, sampleCreator, "Q", "D", 1000, 2000, U64_MAX⟩

/-- Program-side PDA of candidate "Old" under poll 1. -/
def sampleCandOld : Address := prog_candidate_address sampleProgram samplePollAddr "Old"

/-- A candidate whose `votes` sits at the `u64` maximum. -/
def ovfCand : Candidate := ⟨samplePollAddr, "Old", "P", U64_MAX⟩

/-- Ledger holding the saturated poll and candidate. -/
def ovfSt : Ledger :=
  [(samplePollAddr, .pollRec ovfPoll), (sampleCandOld, .candidateRec ovfCand)]

/-- Ledger holding one voter receipt at the CLIENT-derived receipt address for
`(poll 1, sampleVoter)`. -/
def receiptSt : Ledger :=
  [(get_receipt_address sampleProgram 1 sampleVoter,
    .receiptRec ⟨samplePollAddr, sampleVoter, true⟩)]

/-! ## Ledger lemmas -/

/-- Lookup after an insertion. -/
lemma lookupA_insertA (st : Ledger) (a b : Address) (r : Record) :
    lookupA (insertA st a r) b = if a = b then some r else lookupA st b := rfl

/-- Updating one address leaves every other address unchanged. -/
lemma lookupA_updateA_ne (st : Ledger) (a b : Address) (r : Record) (h : a ≠ b) :
    lookupA (updateA st a r) b = lookupA st b := by
  induction st with
  | nil => rfl
  | cons hd tl ih =>
      obtain ⟨a0, r0⟩ := hd
      by_cases h0 : a0 = a
      · subst h0
        simp only [updateA, if_pos rfl, lookupA, if_neg h]
      · simp only [updateA, if_neg h0, lookupA]
        by_cases h1 : a0 = b
        · simp [h1]
        · simp [h1, ih]

/-- Updating an occupied address stores the new record there. -/
lemma lookupA_updateA_self (st : Ledger) (a : Address) (r : Record)
    (h : (lookupA st a).isSome) : lookupA (updateA st a r) a = some r := by
  induction st with
  | nil => simp [lookupA] at h
  | cons hd tl ih =>
      obtain ⟨a0, r0⟩ := hd
      by_cases h0 : a0 = a
      · subst h0
        simp [updateA, lookupA]
      · simp only [updateA, if_neg h0, lookupA, if_neg h0]
        simp only [lookupA, if_neg h0] at h
        exact ih h

/-- Distinct characters have distinct code points. -/
lemma char_toNat_injective : Function.Injective Char.toNat := by
  intro a b h
  exact Char.eq_of_val_eq (UInt32.toNat.inj h)

/-- The byte encoding of strings is injective. -/
lemma strBytes_injective : Function.Injective strBytes := by
  intro s t h
  have h2 : s.toList = t.toList :=
    List.map_injective_iff.mpr char_toNat_injective h
  calc s = String.mk s.toList := rfl
    _ = String.mk t.toList := by rw [h2]
    _ = t := rfl

/-- Distinct candidate names yield distinct program-side candidate PDAs. -/
lemma prog_candidate_address_inj (programId : Bytes) (pollAddr : Address)
    {n1 n2 : String}
    (h : prog_candidate_address programId pollAddr n1
      = prog_candidate_address programId pollAddr n2) : n1 = n2 := by
  have hseeds := congrArg Address.seeds h
  simp only [prog_candidate_address, find_program_address, List.cons.injEq, and_true,
    true_and] at hseeds
  exact strBytes_injective hseeds

/-! ## Claim theorems -/

/-- C3: refuted (code bug).  The claim states that the on-chain program
derives the Candidate PDA from `("candidate", little-endian poll_id, name)`
and the VoterReceipt PDA from `("receipt", little-endian poll_id, voter)`,
matching the client helpers `get_candidate_address` / `get_receipt_address`.
In the code the program's accounts structs seed both PDAs with the poll
ACCOUNT ADDRESS (`poll.key().as_ref()`), not the little-endian poll id, so at
a concrete program id, poll id 1, candidate "Alice" and a concrete voter, the
program-side and client-side derivations produce different addresses. -/
theorem client_program_derivation_mismatch :
    prog_candidate_address sampleProgram samplePollAddr "Alice"
        ≠ get_candidate_address sampleProgram 1 "Alice" ∧
      prog_receipt_address sampleProgram samplePollAddr sampleVoter
        ≠ get_receipt_address sampleProgram 1 sampleVoter :=
  ⟨by decide, by decide⟩

/-- C2: refuted (code bug).  The `Vote` accounts struct places no constraint
tying the candidate account to the poll account (no address recomputation and
no back-reference check for the candidate), so a candidate account belonging
to a DIFFERENT poll can be passed to `vote` together with an unrelated poll
account and have its `votes` counter incremented: in a ledger with polls 1
and 2 and candidate "Bob" registered under poll 2 only, voting with poll 1
and poll 2's "Bob" succeeds, increments that candidate's counter, and files
the receipt under poll 1. -/
theorem vote_accepts_cross_poll_candidate :
    samplePoll2Addr ≠ samplePollAddr ∧
      lookupA crossSt sampleCandBob2
        = some (.candidateRec ⟨samplePoll2Addr, "Bob", "PartyB", 0⟩) ∧
      ∃ st', vote sampleProgram crossSt 1500 samplePollAddr sampleCandBob2 sampleVoter
          = .ok st' ∧
        lookupA st' sampleCandBob2
          = some (.candidateRec ⟨samplePoll2Addr, "Bob", "PartyB", 1⟩) ∧
        lookupA st' (prog_receipt_address sampleProgram samplePollAddr sampleVoter)
          = some (.receiptRec ⟨samplePollAddr, sampleVoter, true⟩) :=
  ⟨by decide, by decide,
    okOr (vote sampleProgram crossSt 1500 samplePollAddr sampleCandBob2 sampleVoter),
    rfl, by decide, by decide⟩

/-- C4: confirmed.  With a poll and a candidate account present, `vote` at a
time strictly before `start_time` or strictly after `end_time` fails with
`PollNotActive` (the instruction returns an error, so — the transaction being
atomic — `candidate.votes` and the receipt state are untouched); and the
window check is inclusive at both endpoints: at `now = start_time` or
`now = end_time`, with the receipt address unoccupied and no counter
saturation, the vote succeeds. -/
theorem vote_window_check (programId : Bytes) (st : Ledger) (now : Int)
    (pollAddr candAddr : Address) (voter : Bytes) (poll : Poll) (cand : Candidate)
    (hpoll : lookupA st pollAddr = some (.pollRec poll))
    (hcand : lookupA st candAddr = some (.candidateRec cand)) :
    ((now < poll.start_time ∨ poll.end_time < now) →
      vote programId st now pollAddr candAddr voter = .error .PollNotActive) ∧
    (poll.start_time ≤ now → now ≤ poll.end_time →
      lookupA st (prog_receipt_address programId pollAddr voter) = none →
      cand.votes < U64_MAX →
      ∃ st', vote programId st now pollAddr candAddr voter = .ok st') := by
  constructor
  · intro hout
    have hnot : ¬(poll.start_time ≤ now ∧ now ≤ poll.end_time) := by omega
    simp [vote, hpoll, hcand, hnot]
  · intro h1 h2 hfresh hovf
    have hok : checkedAdd1 cand.votes = some (cand.votes + 1) := by
      simp [checkedAdd1]
      omega
    simp [vote, hpoll, hcand, h1, h2, hfresh, hok]

/-- C4 witness: on the concrete two-candidate poll with window [1000, 2000],
voting at time 500 is rejected with `PollNotActive`, and voting exactly at
the inclusive endpoint 2000 succeeds. -/
theorem vote_window_check_witness :
    vote sampleProgram sampleSt2 500 samplePollAddr sampleCandAlice sampleVoter
        = .error .PollNotActive ∧
      ∃ st', vote sampleProgram sampleSt2 2000 samplePollAddr sampleCandAlice sampleVoter
        = .ok st' :=
  ⟨(vote_window_check sampleProgram sampleSt2 500 samplePollAddr sampleCandAlice
      sampleVoter ⟨1, sampleCreator, "Q", "D", 1000, 2000, 2⟩
      ⟨samplePollAddr, "Alice", "PartyA", 0⟩ (by decide) (by decide)).1 (by decide),
    (vote_window_check sampleProgram sampleSt2 2000 samplePollAddr sampleCandAlice
      sampleVoter ⟨1, sampleCreator, "Q", "D", 1000, 2000, 2⟩
      ⟨samplePollAddr, "Alice", "PartyA", 0⟩ (by decide) (by decide)).2
      (by decide) (by decide) (by decide) (by decide)⟩

/-- C5: confirmed.  `initialize_candidate` called by any identity other than
the poll's creator fails with `Unauthorized` — the guard is the single
equality comparison `require_keys_eq!(poll.creator, creator)` — and, the
instruction erroring atomically, no candidate record is created and
`candidate_count` is unchanged. -/
theorem initialize_candidate_unauthorized (programId : Bytes) (st : Ledger)
    (caller : Bytes) (pollAddr : Address) (name party : String) (poll : Poll)
    (hpoll : lookupA st pollAddr = some (.pollRec poll))
    (hne : poll.creator ≠ caller) :
    initialize_candidate programId st caller pollAddr name party
      = .error .Unauthorized := by
  simp [initialize_candidate, hpoll, hne]

/-- C5 witness: the identity `[9, 9]` (distinct from the sample creator
`[1, 2]`) cannot register a candidate on the sample poll. -/
theorem initialize_candidate_unauthorized_witness :
    initialize_candidate sampleProgram sampleSt2 [9, 9] samplePollAddr "Eve" "PartyE"
      = .error .Unauthorized :=
  initialize_candidate_unauthorized sampleProgram sampleSt2 [9, 9] samplePollAddr
    "Eve" "PartyE" ⟨1, sampleCreator, "Q", "D", 1000, 2000, 2⟩ (by decide) (by decide)

/-- C8: confirmed.  `initialize_poll` with `start_time ≥ end_time` fails with
`InvalidTimeRange` (the error return creates no record); with
`start_time < end_time` and the derived poll address unoccupied it succeeds
and stores a poll with `candidate_count = 0` and `creator` fixed to the
caller's identity. -/
theorem initialize_poll_time_range (programId : Bytes) (st : Ledger)
    (creator : Bytes) (poll_id : Nat) (q d : String) (s e : Int) :
    (e ≤ s → initialize_poll programId st creator poll_id q d s e
      = .error .InvalidTimeRange) ∧
    (s < e → lookupA st (get_poll_address programId poll_id) = none →
      initialize_poll programId st creator poll_id q d s e
        = .ok (insertA st (get_poll_address programId poll_id)
            (.pollRec ⟨poll_id, creator, q, d, s, e, 0⟩))) := by
  constructor
  · intro hse
    have : ¬(s < e) := by omega
    simp [initialize_poll, this]
  · intro hse hfresh
    simp [initialize_poll, hse, hfresh]

/-- C8 witness: at concrete inputs, creation with `start = 5 ≥ 3 = end` is
rejected with `InvalidTimeRange`, and creation with `start = 1 < 2 = end` on
a fresh address succeeds with `candidate_count = 0` and the caller as
creator. -/
theorem initialize_poll_time_range_witness :
    initialize_poll sampleProgram [] sampleCreator 1 "Q" "D" 5 3
        = .error .InvalidTimeRange ∧
      initialize_poll sampleProgram [] sampleCreator 1 "Q" "D" 1 2
        = .ok (insertA [] (get_poll_address sampleProgram 1)
            (.pollRec ⟨1, sampleCreator, "Q", "D", 1, 2, 0⟩)) :=
  ⟨(initialize_poll_time_range sampleProgram [] sampleCreator 1 "Q" "D" 5 3).1
      (by decide),
    (initialize_poll_time_range sampleProgram [] sampleCreator 1 "Q" "D" 1 2).2
      (by decide) (by decide)⟩

/-- C9: confirmed.  The read-only client query `has_voted` returns `false`
when nothing is stored at the receipt address it derives — absence is
reported as "has not voted", not as an error — and when that address holds a
`VoterReceipt` record it returns the record's `has_voted` flag (which `vote`
always sets to `true` at creation). -/
theorem has_voted_query (programId : Bytes) (st : Ledger) (poll_id : Nat)
    (voter : Bytes) :
    (lookupA st (get_receipt_address programId poll_id voter) = none →
      has_voted programId st poll_id voter = false) ∧
    (∀ r : VoterReceipt,
      lookupA st (get_receipt_address programId poll_id voter)
          = some (.receiptRec r) →
      has_voted programId st poll_id voter = r.has_voted) := by
  constructor
  · intro habs
    simp [has_voted, habs]
  · intro r hr
    simp [has_voted, hr]

/-- C9 witness: on the empty ledger the query answers `false`; on a ledger
holding a receipt with `has_voted = true` at the derived address it answers
`true`. -/
theorem has_voted_query_witness :
    has_voted sampleProgram [] 1 sampleVoter = false ∧
      has_voted sampleProgram receiptSt 1 sampleVoter = true :=
  ⟨(has_voted_query sampleProgram [] 1 sampleVoter).1 (by decide),
    (has_voted_query sampleProgram receiptSt 1 sampleVoter).2
      ⟨samplePollAddr, sampleVoter, true⟩ (by decide)⟩

/-- C6: confirmed.  Both counter increments use checked arithmetic: with
`candidate_count` at `u64::MAX`, an otherwise-valid `initialize_candidate`
aborts with `ArithmeticOverflow` instead of wrapping to 0, and with `votes`
at `u64::MAX`, an otherwise-valid `vote` aborts likewise; each aborting
instruction returns an error, so no state mutation commits. -/
theorem counter_overflow_aborts (programId : Bytes) (st : Ledger)
    (caller voter : Bytes) (pollAddr candAddr : Address)
    (newName party : String) (now : Int) (poll : Poll) (cand : Candidate)
    (hpoll : lookupA st pollAddr = some (.pollRec poll))
    (hcr : poll.creator = caller)
    (hcfresh : lookupA st (prog_candidate_address programId pollAddr newName) = none)
    (hcmax : poll.candidate_count = U64_MAX)
    (hcand : lookupA st candAddr = some (.candidateRec cand))
    (hwin : poll.start_time ≤ now ∧ now ≤ poll.end_time)
    (hrfresh : lookupA st (prog_receipt_address programId pollAddr voter) = none)
    (hvmax : cand.votes = U64_MAX) :
    initialize_candidate programId st caller pollAddr newName party
        = .error .ArithmeticOverflow ∧
      vote programId st now pollAddr candAddr voter
        = .error .ArithmeticOverflow := by
  have hadd : checkedAdd1 U64_MAX = none := by
    simp [checkedAdd1]
  constructor
  · simp [initialize_candidate, hpoll, hcr, hcfresh, hcmax, hadd]
  · simp [vote, hpoll, hcand, hwin.1, hwin.2, hrfresh, hvmax, hadd]

/-- C6 witness: on a ledger whose poll has `candidate_count = u64::MAX` and
whose candidate has `votes = u64::MAX`, registering a fresh candidate and
casting an in-window vote both abort with `ArithmeticOverflow`. -/
theorem counter_overflow_aborts_witness :
    initialize_candidate sampleProgram ovfSt sampleCreator samplePollAddr "New" "P"
        = .error .ArithmeticOverflow ∧
      vote sampleProgram ovfSt 1500 samplePollAddr sampleCandOld sampleVoter
        = .error .ArithmeticOverflow :=
  counter_overflow_aborts sampleProgram ovfSt sampleCreator sampleVoter
    samplePollAddr sampleCandOld "New" "P" 1500 ovfPoll ovfCand
    (by decide) (by decide) (by decide) (by decide) (by decide) (by decide)
    (by decide) (by decide)

/-- C10: confirmed.  `initialize_candidate` reads no clock — it has no time
parameter at all — so for the poll's creator, registration succeeds whatever
the poll's `[start_time, end_time]` window is relative to any "current" time:
overwriting the poll's window with ARBITRARY timestamps `s`, `e` (in
particular a window entirely in the past) leaves an otherwise-valid
registration successful. -/
theorem initialize_candidate_ignores_time (programId : Bytes) (st : Ledger)
    (caller : Bytes) (pollAddr : Address) (name party : String) (poll : Poll)
    (hpoll : lookupA st pollAddr = some (.pollRec poll))
    (hcr : poll.creator = caller)
    (hfresh : lookupA st (prog_candidate_address programId pollAddr name) = none)
    (hcount : poll.candidate_count < U64_MAX) :
    ∀ s e : Int,
      ∃ st', initialize_candidate programId
          (updateA st pollAddr (.pollRec { poll with start_time := s, end_time := e }))
          caller pollAddr name party = .ok st' := by
  intro s e
  subst hcr
  have hner : pollAddr ≠ prog_candidate_address programId pollAddr name := by
    intro hcontra
    rw [hcontra, hfresh] at hpoll
    exact Option.noConfusion hpoll
  have hpoll2 : lookupA (updateA st pollAddr
      (.pollRec { poll with start_time := s, end_time := e })) pollAddr
      = some (.pollRec { poll with start_time := s, end_time := e }) :=
    lookupA_updateA_self st pollAddr _ (by rw [hpoll]; rfl)
  have hfresh2 : lookupA (updateA st pollAddr
      (.pollRec { poll with start_time := s, end_time := e }))
      (prog_candidate_address programId pollAddr name) = none := by
    rw [lookupA_updateA_ne st pollAddr _ _ hner, hfresh]
  have hadd : checkedAdd1 poll.candidate_count = some (poll.candidate_count + 1) := by
    simp [checkedAdd1]
    omega
  exact ⟨_, by simp [initialize_candidate, hpoll2, hfresh2, hadd]; rfl⟩

/-- C10 witness: on the sample poll, after overwriting its window with
`[-100, -50]` — a voting window entirely in the past — the creator still
registers candidate "Carol" successfully. -/
theorem initialize_candidate_ignores_time_witness :
    ∃ st', initialize_candidate sampleProgram
        (updateA sampleSt2 samplePollAddr
          (.pollRec ⟨1, sampleCreator, "Q", "D", -100, -50, 2⟩))
        sampleCreator samplePollAddr "Carol" "PartyC" = .ok st' :=
  initialize_candidate_ignores_time sampleProgram sampleSt2 sampleCreator
    samplePollAddr "Carol" "PartyC" ⟨1, sampleCreator, "Q", "D", 1000, 2000, 2⟩
    (by decide) (by decide) (by decide) (by decide) (-100) (-50)

/-- C1: confirmed.  For a fixed poll, voter and candidate, with the current
time inside the active window, the receipt address unoccupied and no counter
saturation, the first `vote` succeeds, increments that candidate's `votes` by
exactly 1, creates a `VoterReceipt` with `has_voted = true`, and leaves the
poll record untouched; afterwards, EVERY further `vote` by the same voter on
the same poll — for any candidate account present, at any in-window time —
fails with `AlreadyExists` because the derived receipt address is occupied,
and (the instruction erroring atomically) leaves every candidate's `votes`
unchanged. -/
theorem vote_once_then_always_rejected (programId : Bytes) (st : Ledger)
    (now : Int) (pollAddr candAddr : Address) (voter : Bytes)
    (poll : Poll) (cand : Candidate)
    (hpoll : lookupA st pollAddr = some (.pollRec poll))
    (hcand : lookupA st candAddr = some (.candidateRec cand))
    (hfresh : lookupA st (prog_receipt_address programId pollAddr voter) = none)
    (hwin : poll.start_time ≤ now ∧ now ≤ poll.end_time)
    (hovf : cand.votes < U64_MAX) :
    ∃ st', vote programId st now pollAddr candAddr voter = .ok st' ∧
      lookupA st' candAddr
        = some (.candidateRec { cand with votes := cand.votes + 1 }) ∧
      lookupA st' (prog_receipt_address programId pollAddr voter)
        = some (.receiptRec ⟨pollAddr, voter, true⟩) ∧
      lookupA st' pollAddr = some (.pollRec poll) ∧
      ∀ (candAddr2 : Address) (cand2 : Candidate) (now2 : Int),
        lookupA st' candAddr2 = some (.candidateRec cand2) →
        poll.start_time ≤ now2 → now2 ≤ poll.end_time →
        vote programId st' now2 pollAddr candAddr2 voter
          = .error .AlreadyExists := by
  have hadd : checkedAdd1 cand.votes = some (cand.votes + 1) := by
    simp [checkedAdd1]
    omega
  have hrc : prog_receipt_address programId pollAddr voter ≠ candAddr := by
    intro h
    rw [h, hcand] at hfresh
    exact Option.noConfusion hfresh
  have hrp : prog_receipt_address programId pollAddr voter ≠ pollAddr := by
    intro h
    rw [h, hpoll] at hfresh
    exact Option.noConfusion hfresh
  have hcp : candAddr ≠ pollAddr := by
    intro h
    rw [h, hpoll] at hcand
    simp at hcand
  refine ⟨insertA (updateA st candAddr
        (.candidateRec { cand with votes := cand.votes + 1 }))
      (prog_receipt_address programId pollAddr voter)
      (.receiptRec ⟨pollAddr, voter, true⟩), ?_, ?_, ?_, ?_, ?_⟩
  · simp [vote, hpoll, hcand, hwin.1, hwin.2, hfresh, hadd]
  · rw [lookupA_insertA, if_neg hrc]
    exact lookupA_updateA_self st candAddr _ (by rw [hcand]; rfl)
  · rw [lookupA_insertA, if_pos rfl]
  · rw [lookupA_insertA, if_neg hrp, lookupA_updateA_ne st candAddr _ _ hcp, hpoll]
  · intro candAddr2 cand2 now2 h2 hw1 hw2
    have hpoll2 : lookupA (insertA (updateA st candAddr
          (.candidateRec { cand with votes := cand.votes + 1 }))
        (prog_receipt_address programId pollAddr voter)
        (.receiptRec ⟨pollAddr, voter, true⟩)) pollAddr
        = some (.pollRec poll) := by
      rw [lookupA_insertA, if_neg hrp, lookupA_updateA_ne st candAddr _ _ hcp, hpoll]
    have hocc : lookupA (insertA (updateA st candAddr
          (.candidateRec { cand with votes := cand.votes + 1 }))
        (prog_receipt_address programId pollAddr voter)
        (.receiptRec ⟨pollAddr, voter, true⟩))
        (prog_receipt_address programId pollAddr voter)
        = some (.receiptRec ⟨pollAddr, voter, true⟩) := by
      rw [lookupA_insertA, if_pos rfl]
    simp [vote, hpoll2, h2, hw1, hw2, hocc]

/-- C1 witness: on the concrete poll with window [1000, 2000], the sample
voter's first vote for "Alice" at t = 1500 succeeds and bumps Alice to one
vote; the same voter's later attempt at t = 1600 is rejected with
`AlreadyExists`. -/
theorem vote_once_then_always_rejected_witness :
    ∃ st', vote sampleProgram sampleSt2 1500 samplePollAddr sampleCandAlice sampleVoter
        = .ok st' ∧
      lookupA st' sampleCandAlice
        = some (.candidateRec ⟨samplePollAddr, "Alice", "PartyA", 1⟩) ∧
      vote sampleProgram st' 1600 samplePollAddr sampleCandAlice sampleVoter
        = .error .AlreadyExists := by
  obtain ⟨st', hok, hcand1, hrec, hpoll1, hrej⟩ :=
    vote_once_then_always_rejected sampleProgram sampleSt2 1500 samplePollAddr
      sampleCandAlice sampleVoter ⟨1, sampleCreator, "Q", "D", 1000, 2000, 2⟩
      ⟨samplePollAddr, "Alice", "PartyA", 0⟩
      (by decide) (by decide) (by decide) (by decide) (by decide)
  exact ⟨st', hok, hcand1,
    hrej sampleCandAlice ⟨samplePollAddr, "Alice", "PartyA", 1⟩ 1600 hcand1
      (by decide) (by decide)⟩

/-- Folding `initialize_candidate` over a list of pairwise-distinct fresh
candidate names succeeds, adds the list's length to `candidate_count`,
creates each candidate record with `votes = 0`, and touches no other
address. -/
lemma registerAll_spec (programId : Bytes) (pollAddr : Address) (creator : Bytes)
    (party : String) :
    ∀ (names : List String) (st : Ledger) (poll : Poll),
      lookupA st pollAddr = some (.pollRec poll) →
      poll.creator = creator →
      names.Nodup →
      (∀ n ∈ names, lookupA st (prog_candidate_address programId pollAddr n) = none) →
      poll.candidate_count + names.length ≤ U64_MAX →
      ∃ st', registerAll programId pollAddr creator party st names = .ok st' ∧
        lookupA st' pollAddr = some (.pollRec
          { poll with candidate_count := poll.candidate_count + names.length }) ∧
        (∀ n ∈ names, lookupA st' (prog_candidate_address programId pollAddr n)
          = some (.candidateRec ⟨pollAddr, n, party, 0⟩)) ∧
        (∀ b : Address, b ≠ pollAddr →
          (∀ n ∈ names, b ≠ prog_candidate_address programId pollAddr n) →
          lookupA st' b = lookupA st b) := by
  intro names
  induction names with
  | nil =>
      intro st poll hpoll hcr _ _ _
      refine ⟨st, rfl, ?_, by simp, fun b _ _ => rfl⟩
      simpa using hpoll
  | cons n1 rest ih =>
      intro st poll hpoll hcr hnodup hfresh hbound
      have hfresh1 : lookupA st (prog_candidate_address programId pollAddr n1) = none :=
        hfresh n1 (List.mem_cons_self n1 rest)
      have hne1 : prog_candidate_address programId pollAddr n1 ≠ pollAddr := by
        intro h
        rw [h, hpoll] at hfresh1
        exact Option.noConfusion hfresh1
      have hn1nin : n1 ∉ rest := (List.nodup_cons.mp hnodup).1
      have hadd : checkedAdd1 poll.candidate_count
          = some (poll.candidate_count + 1) := by
        simp only [List.length_cons] at hbound
        simp [checkedAdd1]
        omega
      have hstep : initialize_candidate programId st creator pollAddr n1 party
          = .ok (insertA (updateA st pollAddr
              (.pollRec { poll with candidate_count := poll.candidate_count + 1 }))
            (prog_candidate_address programId pollAddr n1)
            (.candidateRec ⟨pollAddr, n1, party, 0⟩)) := by
        subst hcr
        simp [initialize_candidate, hpoll, hfresh1, hadd]
      have h1 : lookupA (insertA (updateA st pollAddr
            (.pollRec { poll with candidate_count := poll.candidate_count + 1 }))
          (prog_candidate_address programId pollAddr n1)
          (.candidateRec ⟨pollAddr, n1, party, 0⟩)) pollAddr
          = some (.pollRec { poll with candidate_count := poll.candidate_count + 1 }) := by
        rw [lookupA_insertA, if_neg hne1]
        exact lookupA_updateA_self st pollAddr _ (by rw [hpoll]; rfl)
      have h4 : ∀ n ∈ rest, lookupA (insertA (updateA st pollAddr
            (.pollRec { poll with candidate_count := poll.candidate_count + 1 }))
          (prog_candidate_address programId pollAddr n1)
          (.candidateRec ⟨pollAddr, n1, party, 0⟩))
          (prog_candidate_address programId pollAddr n) = none := by
        intro n hn
        have hne_names : n1 ≠ n := fun h => hn1nin (h ▸ hn)
        have haddr_ne : prog_candidate_address programId pollAddr n1
            ≠ prog_candidate_address programId pollAddr n :=
          fun h => hne_names (prog_candidate_address_inj programId pollAddr h)
        have hpn : pollAddr ≠ prog_candidate_address programId pollAddr n := by
          intro h
          have hx := hfresh n (List.mem_cons_of_mem _ hn)
          rw [← h, hpoll] at hx
          exact Option.noConfusion hx
        rw [lookupA_insertA, if_neg haddr_ne, lookupA_updateA_ne st pollAddr _ _ hpn]
        exact hfresh n (List.mem_cons_of_mem _ hn)
      obtain ⟨st', hrun', hcount', hcands', hframe'⟩ :=
        ih (insertA (updateA st pollAddr
              (.pollRec { poll with candidate_count := poll.candidate_count + 1 }))
            (prog_candidate_address programId pollAddr n1)
            (.candidateRec ⟨pollAddr, n1, party, 0⟩))
          { poll with candidate_count := poll.candidate_count + 1 }
          h1 hcr ((List.nodup_cons.mp hnodup).2) h4
          (by simp only [List.length_cons] at hbound; simp; omega)
      refine ⟨st', ?_, ?_, ?_, ?_⟩
      · simp only [registerAll, hstep]
        exact hrun'
      · rw [hcount']
        simp [List.length_cons]
        omega
      · intro n hn
        rcases List.mem_cons.mp hn with h | h
        · rw [h]
          have hdiff : ∀ m ∈ rest,
              prog_candidate_address programId pollAddr n1
                ≠ prog_candidate_address programId pollAddr m := by
            intro m hm hcontra
            refine hn1nin ?_
            rw [prog_candidate_address_inj programId pollAddr hcontra]
            exact hm
          have hframe1 := hframe' (prog_candidate_address programId pollAddr n1)
            hne1 hdiff
          rw [hframe1, lookupA_insertA, if_pos rfl]
        · exact hcands' n h
      · intro b hbp hbc
        have hb1 : b ≠ prog_candidate_address programId pollAddr n1 :=
          hbc n1 (List.mem_cons_self n1 rest)
        rw [hframe' b hbp (fun n hn => hbc n (List.mem_cons_of_mem _ hn)),
          lookupA_insertA, if_neg (Ne.symm hb1),
          lookupA_updateA_ne st pollAddr _ _ (Ne.symm hbp)]

/-- C7: confirmed.  Starting from a fresh poll (`candidate_count = 0`),
registering N pairwise-distinct candidate names (N within `u64` range, each
derived candidate address initially unoccupied) succeeds and leaves
`poll.candidate_count = N`; afterwards, registering ANY of those names again
(with any party string) fails with `AlreadyExists` because the derived
candidate address is occupied, and — the instruction erroring atomically —
`candidate_count` is unchanged. -/
theorem register_distinct_then_duplicate (programId : Bytes) (st : Ledger)
    (pollAddr : Address) (creator : Bytes) (party : String)
    (names : List String) (poll : Poll)
    (hpoll : lookupA st pollAddr = some (.pollRec poll))
    (hcr : poll.creator = creator)
    (hzero : poll.candidate_count = 0)
    (hnodup : names.Nodup)
    (hfresh : ∀ n ∈ names, lookupA st (prog_candidate_address programId pollAddr n) = none)
    (hlen : names.length ≤ U64_MAX) :
    ∃ st', registerAll programId pollAddr creator party st names = .ok st' ∧
      lookupA st' pollAddr
        = some (.pollRec { poll with candidate_count := names.length }) ∧
      ∀ n ∈ names, ∀ party2 : String,
        initialize_candidate programId st' creator pollAddr n party2
          = .error .AlreadyExists := by
  obtain ⟨st', hrun, hcount, hcands, _⟩ :=
    registerAll_spec programId pollAddr creator party names st poll hpoll hcr
      hnodup hfresh (by omega)
  have hcount2 : lookupA st' pollAddr
      = some (.pollRec { poll with candidate_count := names.length }) := by
    rw [hcount]
    simp
    omega
  refine ⟨st', hrun, hcount2, ?_⟩
  intro n hn party2
  have hocc := hcands n hn
  subst hcr
  simp [initialize_candidate, hcount2, hocc]

/-- C7 witness: on the fresh sample poll, the two distinct names "Alice" and
"Bob" register successfully, leaving `candidate_count = 2`; re-registering
"Alice" (even under a different party) is rejected with `AlreadyExists`. -/
theorem register_distinct_then_duplicate_witness :
    ∃ st', registerAll sampleProgram samplePollAddr sampleCreator "P" sampleSt0
        ["Alice", "Bob"] = .ok st' ∧
      lookupA st' samplePollAddr
        = some (.pollRec ⟨1, sampleCreator, "Q", "D", 1000, 2000, 2⟩) ∧
      ∀ n ∈ ["Alice", "Bob"], ∀ party2 : String,
        initialize_candidate sampleProgram st' sampleCreator samplePollAddr n party2
          = .error .AlreadyExists :=
  register_distinct_then_duplicate sampleProgram sampleSt0 samplePollAddr
    sampleCreator "P" ["Alice", "Bob"] ⟨1, sampleCreator, "Q", "D", 1000, 2000, 0⟩
    (by decide) (by decide) (by decide) (by decide) (by decide) (by decide)

end VotingDapp
